import Mathlib

/-!
Shallow embedding of the `GroupService` module (`services/group.py`) of a
student thesis-registration system.

The relational store is modelled as lists of rows (one list per table),
kept in insertion order, so that the ORM's `first()` query is `List.find?`.
UUIDs are modelled as `Nat`; the store hands out fresh group ids from a
counter (`nextGroupId`), mirroring the database-assigned primary key.
Python integers are `Int`.  Each service call is a pure function from the
store to an `OpResult` that carries the store at the moment the call
returned or raised, so that "the state is unchanged on failure" is a
provable statement rather than a modelling artefact.  The typed HTTP
failures 404 / 403 / 400 are `Err.notFound` / `Err.forbidden` /
`Err.conflict`; `Err.attrError` marks the one spot where the Python code
would dereference `None` (in `transfer_leader`, when the recorded leader
has no membership row).
-/

namespace ThesisGroups

/-- A row of the `Group` table: id, name, leader, cached member count,
optional registered thesis. -/
structure Group where
  id : Nat
  name : String
  leader_id : Nat
  quantity : Int
  thesis_id : Option Nat
deriving DecidableEq

/-- A row of the `GroupMember` table. -/
structure GroupMember where
  group_id : Nat
  student_id : Nat
  is_leader : Bool
deriving DecidableEq

/-- A row of the `Invite` table (only its group scope matters here). -/
structure Invite where
  id : Nat
  group_id : Nat
deriving DecidableEq

/-- A row of the `Thesis` table. -/
structure Thesis where
  id : Nat
  status : Int
deriving DecidableEq

/-- A row of the `Information` profile table. -/
structure Information where
  user_id : Nat
  first_name : String
  last_name : String
deriving DecidableEq

/-- A row of the `StudentInfo` profile table. -/
structure StudentInfo where
  user_id : Nat
  student_code : String
deriving DecidableEq

/-- The relational store: one list of rows per table, in insertion order,
plus the fresh-id counter for groups. -/
structure DB where
  groups : List Group
  members : List GroupMember
  invites : List Invite
  theses : List Thesis
  informations : List Information
  studentInfos : List StudentInfo
  nextGroupId : Nat
deriving DecidableEq

/-- The typed failures the service raises (HTTP 404 / 403 / 400), plus the
`None`-dereference crash that `transfer_leader` can hit. -/
inductive Err where
  | notFound
  | forbidden
  | conflict
  | attrError
deriving DecidableEq

/-- Result of a service call: success or a typed failure, in either case
carrying the store as the call left it. -/
inductive OpResult (α : Type) where
  | ok (db : DB) (val : α)
  | err (db : DB) (e : Err)
deriving DecidableEq

/-- The store a call left behind, success or failure. -/
def resState : OpResult α → DB
  | .ok db _ => db
  | .err db _ => db

/-- `db.query(Group).filter(Group.id == gid).first()`. -/
def findGroup (db : DB) (gid : Nat) : Option Group :=
  db.groups.find? (fun g => decide (g.id = gid))

/-- The membership-row predicate `group_id == gid, student_id == sid`. -/
def memberPred (gid sid : Nat) (m : GroupMember) : Bool :=
  decide (m.group_id = gid) && decide (m.student_id = sid)

/-- Update the first element satisfying `p` (the ORM mutates the single
object returned by `first()`). -/
def updateFirstP (p : α → Bool) (f : α → α) : List α → List α
  | [] => []
  | x :: xs => if p x then f x :: xs else x :: updateFirstP p f xs

/-- `group.quantity += 1` -/
def incQuantity (g : Group) : Group := { g with quantity := g.quantity + 1 }

/-- `group.quantity -= 1` -/
def decQuantity (g : Group) : Group := { g with quantity := g.quantity - 1 }

/-- `group.leader_id = n` -/
def setLeaderId (n : Nat) (g : Group) : Group := { g with leader_id := n }

/-- `group.name = new_name` -/
def setName (nm : String) (g : Group) : Group := { g with name := nm }

/-- `group.thesis_id = thesis_id` -/
def setThesisId (t : Nat) (g : Group) : Group := { g with thesis_id := some t }

/-- `thesis.status = 2` -/
def setRegistered (t : Thesis) : Thesis := { t with status := 2 }

/-- `member.is_leader = b` -/
def setIsLeader (b : Bool) (m : GroupMember) : GroupMember := { m with is_leader := b }

/-- `is_member_of_any_group`: does any `GroupMember` row carry this
student id? -/
def is_member_of_any_group (db : DB) (user_id : Nat) : Bool :=
  (db.members.find? (fun m => decide (m.student_id = user_id))).isSome

/-- `create_group`: reject a caller who is already in some group, else
insert a fresh `Group` with `quantity = 1` and its leader row. -/
def create_group (db : DB) (name : String) (user_id : Nat) : OpResult Group :=
  if (db.members.find? (fun m => decide (m.student_id = user_id))).isSome then
    .err db .conflict
  else
    let new_group : Group := ⟨db.nextGroupId, name, user_id, 1, none⟩
    let group_leader : GroupMember := ⟨new_group.id, user_id, true⟩
    .ok { db with
            groups := db.groups ++ [new_group],
            members := db.members ++ [group_leader],
            nextGroupId := db.nextGroupId + 1 } new_group

/-- `add_member`: group lookup, leader check, capacity check, global
membership check, then insert the row and bump `quantity`. -/
def add_member (db : DB) (group_id student_id leader_id : Nat) : OpResult GroupMember :=
  match findGroup db group_id with
  | none => .err db .notFound
  | some group =>
    if group.leader_id ≠ leader_id then .err db .forbidden
    else if 4 ≤ group.quantity then .err db .conflict
    else if is_member_of_any_group db student_id then .err db .conflict
    else
      let new_member : GroupMember := ⟨group_id, student_id, false⟩
      .ok { db with
              members := db.members ++ [new_member],
              groups := updateFirstP (fun g => decide (g.id = group_id)) incQuantity db.groups }
         new_member

/-- `remove_member`: group lookup, leader check, self-removal check,
membership lookup, then delete the row and decrement `quantity`. -/
def remove_member (db : DB) (group_id member_id leader_id : Nat) : OpResult Unit :=
  match findGroup db group_id with
  | none => .err db .notFound
  | some group =>
    if group.leader_id ≠ leader_id then .err db .forbidden
    else if member_id = leader_id then .err db .conflict
    else if (db.members.find? (memberPred group_id member_id)).isNone then .err db .notFound
    else
      .ok { db with
              members := db.members.eraseP (memberPred group_id member_id),
              groups := updateFirstP (fun g => decide (g.id = group_id)) decQuantity db.groups }
         ()

/-- `get_members`. -/
def get_members (db : DB) (group_id : Nat) : List GroupMember :=
  db.members.filter (fun m => decide (m.group_id = group_id))

/-- `transfer_leader`: group lookup, leader check, 404 when the target is
not a member; then the current leader row's flag goes to `false`, the new
leader row's flag to `true`, and `Group.leader_id` to the new leader.
When the recorded leader has no membership row the Python code crashes on
`None.is_leader`; that is `Err.attrError`. -/
def transfer_leader (db : DB) (group_id new_leader_id current_leader_id : Nat) : OpResult Unit :=
  match findGroup db group_id with
  | none => .err db .notFound
  | some group =>
    if group.leader_id ≠ current_leader_id then .err db .forbidden
    else if (db.members.find? (memberPred group_id new_leader_id)).isNone then .err db .notFound
    else if (db.members.find? (memberPred group_id current_leader_id)).isNone then
      .err db .attrError
    else
      .ok { db with
              members :=
                updateFirstP (memberPred group_id new_leader_id) (setIsLeader true)
                  (updateFirstP (memberPred group_id current_leader_id) (setIsLeader false)
                    db.members),
              groups :=
                updateFirstP (fun g => decide (g.id = group_id)) (setLeaderId new_leader_id)
                  db.groups }
         ()

/-- `update_group_name`: group lookup, leader check, rename. -/
def update_group_name (db : DB) (group_id : Nat) (new_name : String) (user_id : Nat) :
    OpResult Group :=
  match findGroup db group_id with
  | none => .err db .notFound
  | some group =>
    if group.leader_id ≠ user_id then .err db .forbidden
    else
      .ok { db with
              groups := updateFirstP (fun g => decide (g.id = group_id)) (setName new_name)
                db.groups }
         (setName new_name group)

/-- One entry of the detailed member list. -/
structure MemberDetailResponse where
  user_id : Nat
  full_name : String
  student_code : String
  is_leader : Bool
deriving DecidableEq

/-- Group metadata together with its detailed member list. -/
structure GroupWithMembersResponse where
  id : Nat
  name : String
  leader_id : Nat
  members : List MemberDetailResponse
deriving DecidableEq

/-- The member-detail assembly loop shared by `get_all_groups_for_user`
and `get_detailed_members_of_group`: for each membership row of the group,
look up both profile rows and keep the member only when `info and
student_info` is truthy, i.e. both are present. -/
def memberDetails (db : DB) (group_id : Nat) : List MemberDetailResponse :=
  (db.members.filter (fun m => decide (m.group_id = group_id))).filterMap
    (fun member =>
      match db.informations.find? (fun i => decide (i.user_id = member.student_id)),
            db.studentInfos.find? (fun s => decide (s.user_id = member.student_id)) with
      | some info, some student_info =>
          some ⟨member.student_id, info.last_name ++ " " ++ info.first_name,
                student_info.student_code, member.is_leader⟩
      | _, _ => none)

/-- `get_all_groups_for_user`: one response per membership row of the
user whose group row exists, with the detailed member list. -/
def get_all_groups_for_user (db : DB) (user_id : Nat) : List GroupWithMembersResponse :=
  (db.members.filter (fun m => decide (m.student_id = user_id))).filterMap
    (fun membership =>
      match findGroup db membership.group_id with
      | none => none
      | some group =>
          some ⟨group.id, group.name, group.leader_id, memberDetails db membership.group_id⟩)

/-- `get_detailed_members_of_group`: 404 when the group is absent, else
the detailed member list. -/
def get_detailed_members_of_group (db : DB) (group_id : Nat) :
    OpResult (List MemberDetailResponse) :=
  match findGroup db group_id with
  | none => .err db .notFound
  | some _ => .ok db (memberDetails db group_id)

/-- `get_group_with_detailed_members`. -/
def get_group_with_detailed_members (db : DB) (group_id : Nat) :
    OpResult GroupWithMembersResponse :=
  match findGroup db group_id with
  | none => .err db .notFound
  | some group =>
    match get_detailed_members_of_group db group_id with
    | .err db' e => .err db' e
    | .ok _ members_list => .ok db ⟨group.id, group.name, group.leader_id, members_list⟩

/-- `delete_group`: group lookup, leader check, reject when a thesis is
attached; else bulk-delete the group's invites and members, then the
group row. -/
def delete_group (db : DB) (group_id user_id : Nat) : OpResult Unit :=
  match findGroup db group_id with
  | none => .err db .notFound
  | some group =>
    if group.leader_id ≠ user_id then .err db .forbidden
    else if group.thesis_id.isSome then .err db .conflict
    else
      .ok { db with
              invites := db.invites.filter (fun i => !decide (i.group_id = group_id)),
              members := db.members.filter (fun m => !decide (m.group_id = group_id)),
              groups := db.groups.eraseP (fun g => decide (g.id = group_id)) }
         ()

/-- `register_thesis_for_group`: group lookup, leader check, reject when
the group already has a thesis; 404 when the thesis row is absent; reject
when some group already holds the thesis; else bind the thesis to the
group and mark it registered (`status = 2`). -/
def register_thesis_for_group (db : DB) (group_id thesis_id user_id : Nat) : OpResult Group :=
  match findGroup db group_id with
  | none => .err db .notFound
  | some group =>
    if group.leader_id ≠ user_id then .err db .forbidden
    else if group.thesis_id.isSome then .err db .conflict
    else
      match db.theses.find? (fun t => decide (t.id = thesis_id)) with
      | none => .err db .notFound
      | some _ =>
        if (db.groups.find? (fun g => decide (g.thesis_id = some thesis_id))).isSome then
          .err db .conflict
        else
          .ok { db with
                  groups := updateFirstP (fun g => decide (g.id = group_id))
                    (setThesisId thesis_id) db.groups,
                  theses := updateFirstP (fun t => decide (t.id = thesis_id)) setRegistered
                    db.theses }
             (setThesisId thesis_id group)

/-! ### Generic lemmas about `updateFirstP` and single-match lists -/

theorem updateFirstP_of_forall_not {p : α → Bool} {f : α → α} {l : List α}
    (h : ∀ x ∈ l, ¬ p x) : updateFirstP p f l = l := by
  induction l with
  | nil => rfl
  | cons x xs ih =>
    have hx : ¬ p x := h x (List.mem_cons_self x xs)
    simp only [updateFirstP, if_neg hx]
    rw [ih (fun y hy => h y (List.mem_cons_of_mem x hy))]

theorem updateFirstP_append_right {p : α → Bool} {f : α → α} {l₁ l₂ : List α}
    (h : ∀ x ∈ l₁, ¬ p x) :
    updateFirstP p f (l₁ ++ l₂) = l₁ ++ updateFirstP p f l₂ := by
  induction l₁ with
  | nil => rfl
  | cons x xs ih =>
    have hx : ¬ p x := h x (List.mem_cons_self x xs)
    simp only [List.cons_append, updateFirstP, if_neg hx]
    exact congrArg _ (ih (fun y hy => h y (List.mem_cons_of_mem x hy)))

theorem updateFirstP_of_find?_eq_some {p : α → Bool} (f : α → α) {l : List α} {x : α}
    (h : l.find? p = some x) :
    ∃ l₁ l₂, l = l₁ ++ x :: l₂ ∧ (∀ y ∈ l₁, ¬ p y) ∧
      updateFirstP p f l = l₁ ++ f x :: l₂ := by
  obtain ⟨hpx, l₁, l₂, hl, hl₁⟩ := List.find?_eq_some.mp h
  have hneg : ∀ y ∈ l₁, ¬ p y := by
    intro y hy
    simpa using hl₁ y hy
  refine ⟨l₁, l₂, hl, hneg, ?_⟩
  rw [hl, updateFirstP_append_right hneg]
  simp [updateFirstP, hpx]

theorem updateFirstP_eq_self {p : α → Bool} {f : α → α} {l : List α} {x : α}
    (h : l.find? p = some x) (hfx : f x = x) : updateFirstP p f l = l := by
  obtain ⟨l₁, l₂, hl, _, heq⟩ := updateFirstP_of_find?_eq_some f h
  rw [heq, hfx]
  exact hl.symm

theorem mem_of_mem_updateFirstP {p : α → Bool} {f : α → α} {l : List α} {y : α}
    (h : y ∈ updateFirstP p f l) : y ∈ l ∨ ∃ x ∈ l, y = f x := by
  induction l with
  | nil => simp only [updateFirstP] at h; cases h
  | cons x xs ih =>
    by_cases hx : p x
    · simp only [updateFirstP, if_pos hx] at h
      rcases List.mem_cons.mp h with h1 | h1
      · exact Or.inr ⟨x, List.mem_cons_self x xs, h1⟩
      · exact Or.inl (List.mem_cons_of_mem x h1)
    · simp only [updateFirstP, if_neg hx] at h
      rcases List.mem_cons.mp h with h1 | h1
      · exact Or.inl (h1 ▸ List.mem_cons_self x xs)
      · rcases ih h1 with h2 | ⟨z, hz, hyz⟩
        · exact Or.inl (List.mem_cons_of_mem x h2)
        · exact Or.inr ⟨z, List.mem_cons_of_mem x hz, hyz⟩

theorem map_updateFirstP {p : α → Bool} {f : α → α} {g : α → β} {l : List α}
    (h : ∀ x, g (f x) = g x) : (updateFirstP p f l).map g = l.map g := by
  induction l with
  | nil => rfl
  | cons x xs ih =>
    by_cases hx : p x <;> simp [updateFirstP, hx, h, ih]

theorem countP_updateFirstP {p q : α → Bool} {f : α → α} {l : List α}
    (h : ∀ x, q (f x) = q x) : (updateFirstP p f l).countP q = l.countP q := by
  induction l with
  | nil => rfl
  | cons x xs ih =>
    by_cases hx : p x
    · simp [updateFirstP, hx, List.countP_cons, h]
    · simp [updateFirstP, hx, List.countP_cons, ih]

theorem updateFirstP_eq_map {p : α → Bool} {f : α → α} {l : List α}
    (h : l.countP p ≤ 1) :
    updateFirstP p f l = l.map (fun x => if p x then f x else x) := by
  induction l with
  | nil => rfl
  | cons x xs ih =>
    rw [List.countP_cons] at h
    by_cases hx : p x
    · have h0 : xs.countP p = 0 := by
        rw [if_pos hx] at h
        omega
      have hxs : ∀ y ∈ xs, ¬ p y := by simpa using List.countP_eq_zero.mp h0
      simp only [updateFirstP, if_pos hx, List.map_cons]
      rw [List.map_congr_left (fun y hy => if_neg (hxs y hy)), List.map_id']
    · have h1 : xs.countP p ≤ 1 := by
        rw [if_neg hx] at h
        omega
      simp only [updateFirstP, if_neg hx, List.map_cons, ih h1]

theorem filter_eq_of_countP_le_one {p : α → Bool} {l : List α} {x : α}
    (h1 : l.countP p ≤ 1) (h2 : l.find? p = some x) : l.filter p = [x] := by
  have hx : x ∈ l.filter p :=
    List.mem_filter.mpr ⟨List.mem_of_find?_eq_some h2, List.find?_some h2⟩
  have hlen : (l.filter p).length ≤ 1 := by
    rw [← List.countP_eq_length_filter]
    exact h1
  cases hf : l.filter p with
  | nil => rw [hf] at hx; cases hx
  | cons a as =>
    rw [hf] at hx hlen
    have hz : as = [] := by
      have : as.length = 0 := by simp only [List.length_cons] at hlen; omega
      exact List.eq_nil_of_length_eq_zero this
    subst hz
    have : x = a := by simpa using hx
    rw [this]

theorem countP_le_one_of_nodup_map {f : α → Nat} {l : List α}
    (hn : (l.map f).Nodup) (b : Nat) :
    l.countP (fun x => decide (f x = b)) ≤ 1 := by
  have h1 : l.countP (fun x => decide (f x = b)) = (l.map f).countP (fun y => decide (y = b)) := by
    rw [List.countP_map]
    rfl
  have h2 : (l.map f).countP (fun y => decide (y = b)) = (l.map f).count b := by
    rw [List.count_eq_countP]
    exact List.countP_congr (fun y _ => by simp)
  rw [h1, h2]
  exact List.nodup_iff_count_le_one.mp hn b

/-! ### Store-level invariants and reachability -/

/-- The number of `GroupMember` rows of a group. -/
def groupCount (ms : List GroupMember) (gid : Nat) : Nat :=
  ms.countP (fun m => decide (m.group_id = gid))

/-- The `is_leader = true` membership rows of a group. -/
def leaderRows (ms : List GroupMember) (gid : Nat) : List GroupMember :=
  ms.filter (fun m => decide (m.group_id = gid) && m.is_leader)

/-- Store well-formedness: distinct group ids below the fresh-id counter,
membership rows scoped to already-issued ids, at most one membership row
per student system-wide, each group's `quantity` equal to its member-row
count, and each group's leader rows equal to exactly the one row of its
recorded leader. -/
structure WF (db : DB) : Prop where
  ids_nodup : (db.groups.map Group.id).Nodup
  group_id_lt : ∀ g ∈ db.groups, g.id < db.nextGroupId
  member_group_lt : ∀ m ∈ db.members, m.group_id < db.nextGroupId
  students_nodup : (db.members.map GroupMember.student_id).Nodup
  quantity_eq : ∀ g ∈ db.groups, g.quantity = (groupCount db.members g.id : Int)
  leader_unique : ∀ g ∈ db.groups, leaderRows db.members g.id = [⟨g.id, g.leader_id, true⟩]

/-- The empty store. -/
def initDB : DB := ⟨[], [], [], [], [], [], 0⟩

/-- One transition of the store: any service call with any arguments, or
the insertion of a thesis or profile row by a collaborator service that
is out of this module's scope. -/
inductive Step : DB → DB → Prop where
  | createG (db : DB) (name : String) (uid : Nat) :
      Step db (resState (create_group db name uid))
  | addM (db : DB) (g s l : Nat) : Step db (resState (add_member db g s l))
  | removeM (db : DB) (g m l : Nat) : Step db (resState (remove_member db g m l))
  | transferL (db : DB) (g n c : Nat) : Step db (resState (transfer_leader db g n c))
  | renameG (db : DB) (g : Nat) (nm : String) (u : Nat) :
      Step db (resState (update_group_name db g nm u))
  | deleteG (db : DB) (g u : Nat) : Step db (resState (delete_group db g u))
  | registerT (db : DB) (g t u : Nat) :
      Step db (resState (register_thesis_for_group db g t u))
  | newThesis (db : DB) (t : Thesis) : Step db { db with theses := db.theses ++ [t] }
  | newInformation (db : DB) (i : Information) :
      Step db { db with informations := db.informations ++ [i] }
  | newStudentInfo (db : DB) (s : StudentInfo) :
      Step db { db with studentInfos := db.studentInfos ++ [s] }

/-- The stores reachable from the empty store. -/
inductive Reachable : DB → Prop where
  | init : Reachable initDB
  | step {db db' : DB} : Reachable db → Step db db' → Reachable db'

theorem findGroup_id {db : DB} {gid : Nat} {g : Group} (h : findGroup db gid = some g) :
    g.id = gid := by
  unfold findGroup at h
  have := List.find?_some h
  simpa using this

theorem findGroup_mem {db : DB} {gid : Nat} {g : Group} (h : findGroup db gid = some g) :
    g ∈ db.groups := by
  unfold findGroup at h
  exact List.mem_of_find?_eq_some h

theorem ne_id_of_nodup_decomp {gs l₁ l₂ : List Group} {g : Group}
    (hn : (gs.map Group.id).Nodup) (hd : gs = l₁ ++ g :: l₂) :
    ∀ y, y ∈ l₁ ∨ y ∈ l₂ → y.id ≠ g.id := by
  subst hd
  rw [List.map_append, List.map_cons] at hn
  have h2 := List.nodup_middle.mp hn
  have h3 : g.id ∉ l₁.map Group.id ++ l₂.map Group.id :=
    (List.nodup_cons.mp h2).1
  intro y hy hcontra
  rcases hy with hy | hy
  · exact h3 (List.mem_append_left _ (hcontra ▸ List.mem_map_of_mem Group.id hy))
  · exact h3 (List.mem_append_right _ (hcontra ▸ List.mem_map_of_mem Group.id hy))

theorem groupCount_append (ms₁ ms₂ : List GroupMember) (gid : Nat) :
    groupCount (ms₁ ++ ms₂) gid = groupCount ms₁ gid + groupCount ms₂ gid := by
  unfold groupCount
  rw [List.countP_append]

theorem leaderRows_append (ms₁ ms₂ : List GroupMember) (gid : Nat) :
    leaderRows (ms₁ ++ ms₂) gid = leaderRows ms₁ gid ++ leaderRows ms₂ gid := by
  unfold leaderRows
  rw [List.filter_append]

theorem groupCount_eq_zero_of_lt {ms : List GroupMember} {n : Nat}
    (h : ∀ m ∈ ms, m.group_id < n) : groupCount ms n = 0 := by
  unfold groupCount
  rw [List.countP_eq_zero]
  intro m hm
  have := h m hm
  simp only [decide_eq_true_eq]
  omega

theorem leaderRows_eq_nil_of_lt {ms : List GroupMember} {n : Nat}
    (h : ∀ m ∈ ms, m.group_id < n) : leaderRows ms n = [] := by
  unfold leaderRows
  rw [List.filter_eq_nil_iff]
  intro m hm
  have := h m hm
  simp only [Bool.and_eq_true, decide_eq_true_eq, not_and]
  omega

/-- `create_group` preserves well-formedness. -/
theorem wf_create_group (db : DB) (name : String) (uid : Nat) (hwf : WF db) :
    WF (resState (create_group db name uid)) := by
  simp only [create_group]
  split
  · exact hwf
  · next hmem =>
    have hnotin : ∀ m ∈ db.members, m.student_id ≠ uid := by
      intro m hm hcontra
      exact hmem (List.find?_isSome.mpr ⟨m, hm, by simp [hcontra]⟩)
    simp only [resState]
    refine ⟨?_, ?_, ?_, ?_, ?_, ?_⟩
    · rw [List.map_append]
      refine List.Nodup.append hwf.ids_nodup (List.nodup_singleton _) ?_
      intro a ha hb
      obtain ⟨g, hg, rfl⟩ := List.mem_map.mp ha
      have h1 := hwf.group_id_lt g hg
      simp only [List.map_cons, List.map_nil, List.mem_singleton] at hb
      omega
    · intro g hg
      rcases List.mem_append.mp hg with hg | hg
      · exact Nat.lt_succ_of_lt (hwf.group_id_lt g hg)
      · simp only [List.mem_singleton] at hg
        subst hg
        exact Nat.lt_succ_self _
    · intro m hm
      rcases List.mem_append.mp hm with hm | hm
      · exact Nat.lt_succ_of_lt (hwf.member_group_lt m hm)
      · simp only [List.mem_singleton] at hm
        subst hm
        exact Nat.lt_succ_self _
    · rw [List.map_append]
      refine List.Nodup.append hwf.students_nodup (List.nodup_singleton _) ?_
      intro a ha hb
      obtain ⟨m, hm, rfl⟩ := List.mem_map.mp ha
      simp only [List.map_cons, List.map_nil, List.mem_singleton] at hb
      exact hnotin m hm hb
    · intro g hg
      rcases List.mem_append.mp hg with hg | hg
      · have hlt := hwf.group_id_lt g hg
        rw [groupCount_append]
        have h0 : groupCount [⟨db.nextGroupId, uid, true⟩] g.id = 0 := by
          unfold groupCount
          simp only [List.countP_cons, List.countP_nil, decide_eq_true_eq]
          rw [if_neg (by omega)]
        rw [h0]
        simpa using hwf.quantity_eq g hg
      · simp only [List.mem_singleton] at hg
        subst hg
        rw [groupCount_append, groupCount_eq_zero_of_lt hwf.member_group_lt]
        unfold groupCount
        simp
    · intro g hg
      rcases List.mem_append.mp hg with hg | hg
      · have hlt := hwf.group_id_lt g hg
        rw [leaderRows_append]
        have h0 : leaderRows [⟨db.nextGroupId, uid, true⟩] g.id = [] := by
          unfold leaderRows
          simp only [List.filter_cons, List.filter_nil, Bool.and_eq_true, decide_eq_true_eq]
          rw [if_neg (by intro hc; omega)]
        rw [h0, List.append_nil]
        exact hwf.leader_unique g hg
      · simp only [List.mem_singleton] at hg
        subst hg
        rw [leaderRows_append, leaderRows_eq_nil_of_lt hwf.member_group_lt]
        unfold leaderRows
        simp

/-- `add_member` preserves well-formedness. -/
theorem wf_add_member (db : DB) (g s l : Nat) (hwf : WF db) :
    WF (resState (add_member db g s l)) := by
  cases hfind : findGroup db g with
  | none =>
    simp only [add_member, hfind]
    exact hwf
  | some grp =>
    simp only [add_member, hfind]
    by_cases h1 : grp.leader_id ≠ l
    · simp only [if_pos h1]
      exact hwf
    simp only [if_neg h1]
    by_cases h2 : (4 : Int) ≤ grp.quantity
    · simp only [if_pos h2]
      exact hwf
    simp only [if_neg h2]
    by_cases h3 : is_member_of_any_group db s = true
    · simp only [h3, if_true]
      exact hwf
    simp only [Bool.not_eq_true] at h3
    simp only [h3, Bool.false_eq_true, if_false, resState]
    have hid : grp.id = g := findGroup_id hfind
    have hfd : db.groups.find? (fun x => decide (x.id = g)) = some grp := hfind
    obtain ⟨L1, L2, hgs, hnomatch, hupd⟩ := updateFirstP_of_find?_eq_some incQuantity hfd
    have hne := ne_id_of_nodup_decomp hwf.ids_nodup hgs
    have hs_not : ∀ m ∈ db.members, m.student_id ≠ s := by
      intro m hm hcontra
      have : is_member_of_any_group db s = true := by
        unfold is_member_of_any_group
        exact List.find?_isSome.mpr ⟨m, hm, by simp [hcontra]⟩
      rw [h3] at this
      cases this
    refine ⟨?_, ?_, ?_, ?_, ?_, ?_⟩ <;> dsimp only
    · rw [map_updateFirstP (f := incQuantity) (g := Group.id) (fun x => rfl)]
      exact hwf.ids_nodup
    · intro g2 hg2
      rcases mem_of_mem_updateFirstP hg2 with h | ⟨x, hx, rfl⟩
      · exact hwf.group_id_lt g2 h
      · exact hwf.group_id_lt x hx
    · intro m hm
      rcases List.mem_append.mp hm with hm | hm
      · exact hwf.member_group_lt m hm
      · simp only [List.mem_singleton] at hm
        subst hm
        simpa [← hid] using hwf.group_id_lt grp (findGroup_mem hfind)
    · rw [List.map_append]
      refine List.Nodup.append hwf.students_nodup (List.nodup_singleton _) ?_
      intro a ha hb
      obtain ⟨m, hm, rfl⟩ := List.mem_map.mp ha
      simp only [List.map_cons, List.map_nil, List.mem_singleton] at hb
      exact hs_not m hm hb
    · intro g2 hg2
      rw [hupd] at hg2
      have hcount_other : ∀ gid : Nat, gid ≠ g →
          groupCount (db.members ++ [⟨g, s, false⟩]) gid = groupCount db.members gid := by
        intro gid hgid
        rw [groupCount_append]
        have h0 : groupCount [⟨g, s, false⟩] gid = 0 := by
          unfold groupCount
          simp only [List.countP_cons, List.countP_nil, decide_eq_true_eq]
          rw [if_neg (by omega)]
        omega
      rcases List.mem_append.mp hg2 with h | h
      · have hne2 : g2.id ≠ g := hid ▸ hne g2 (Or.inl h)
        rw [hcount_other g2.id hne2]
        exact hwf.quantity_eq g2 (hgs ▸ List.mem_append_left _ h)
      · rcases List.mem_cons.mp h with rfl | h
        · have hq := hwf.quantity_eq grp (findGroup_mem hfind)
          have hcnt : groupCount (db.members ++ [⟨g, s, false⟩]) (incQuantity grp).id =
              groupCount db.members grp.id + 1 := by
            rw [groupCount_append]
            have h1' : (incQuantity grp).id = grp.id := rfl
            rw [h1']
            have : groupCount [⟨g, s, false⟩] grp.id = 1 := by
              unfold groupCount
              simp [hid]
            omega
          rw [hcnt]
          unfold incQuantity
          simp only []
          rw [hq]
          push_cast
          ring
        · have hne2 : g2.id ≠ g := hid ▸ hne g2 (Or.inr h)
          rw [hcount_other g2.id hne2]
          exact hwf.quantity_eq g2 (hgs ▸ List.mem_append_right _ (List.mem_cons_of_mem _ h))
    · intro g2 hg2
      rw [hupd] at hg2
      have hrows : ∀ gid : Nat, leaderRows (db.members ++ [⟨g, s, false⟩]) gid =
          leaderRows db.members gid := by
        intro gid
        rw [leaderRows_append]
        have h0 : leaderRows [⟨g, s, false⟩] gid = [] := by
          unfold leaderRows
          simp
        rw [h0, List.append_nil]
      rcases List.mem_append.mp hg2 with h | h
      · rw [hrows]
        exact hwf.leader_unique g2 (hgs ▸ List.mem_append_left _ h)
      · rcases List.mem_cons.mp h with rfl | h
        · rw [hrows]
          exact hwf.leader_unique grp (findGroup_mem hfind)
        · rw [hrows]
          exact hwf.leader_unique g2 (hgs ▸ List.mem_append_right _ (List.mem_cons_of_mem _ h))

theorem groupCount_middle (A B : List GroupMember) (a : GroupMember) (gid : Nat) :
    groupCount (A ++ a :: B) gid =
      groupCount (A ++ B) gid + if a.group_id = gid then 1 else 0 := by
  unfold groupCount
  rw [List.countP_append, List.countP_append, List.countP_cons]
  by_cases ha : a.group_id = gid
  · simp [ha]
    omega
  · simp [ha]

theorem leaderRows_middle_of_neg {A B : List GroupMember} {a : GroupMember} {gid : Nat}
    (h : (decide (a.group_id = gid) && a.is_leader) = false) :
    leaderRows (A ++ a :: B) gid = leaderRows (A ++ B) gid := by
  unfold leaderRows
  rw [List.filter_append, List.filter_append, List.filter_cons_of_neg (by simp [h])]

/-- `remove_member` preserves well-formedness. -/
theorem wf_remove_member (db : DB) (g m l : Nat) (hwf : WF db) :
    WF (resState (remove_member db g m l)) := by
  cases hfind : findGroup db g with
  | none =>
    simp only [remove_member, hfind]
    exact hwf
  | some grp =>
    simp only [remove_member, hfind]
    by_cases h1 : grp.leader_id ≠ l
    · simp only [if_pos h1]
      exact hwf
    simp only [if_neg h1]
    by_cases h2 : m = l
    · simp only [if_pos h2]
      exact hwf
    simp only [if_neg h2]
    cases hr : db.members.find? (memberPred g m) with
    | none =>
      simp only [hr, Option.isNone_none, if_true]
      exact hwf
    | some r =>
      simp only [hr, Option.isNone_some, Bool.false_eq_true, if_false, resState]
      have hid : grp.id = g := findGroup_id hfind
      have hleader : grp.leader_id = l := not_not.mp h1
      have hrmem : r ∈ db.members := List.mem_of_find?_eq_some hr
      have hrpred : memberPred g m r = true := List.find?_some hr
      obtain ⟨a, A, B, hA, hpa, hms, herase⟩ :=
        List.exists_of_eraseP hrmem hrpred
      have hag : a.group_id = g := by
        simp only [memberPred, Bool.and_eq_true, decide_eq_true_eq] at hpa
        exact hpa.1
      have ham : a.student_id = m := by
        simp only [memberPred, Bool.and_eq_true, decide_eq_true_eq] at hpa
        exact hpa.2
      have hfd : db.groups.find? (fun x => decide (x.id = g)) = some grp := hfind
      obtain ⟨L1, L2, hgs, hnomatch, hupd⟩ := updateFirstP_of_find?_eq_some decQuantity hfd
      have hne := ne_id_of_nodup_decomp hwf.ids_nodup hgs
      have ha_not_leader_row :
          (decide (a.group_id = grp.id) && a.is_leader) = false := by
        by_cases hal : a.is_leader
        · exfalso
          have hamem : a ∈ leaderRows db.members grp.id := by
            unfold leaderRows
            refine List.mem_filter.mpr ⟨hms ▸ List.mem_append_right _ (List.mem_cons_self a B), ?_⟩
            simp [hag, hid, hal]
          rw [hwf.leader_unique grp (findGroup_mem hfind)] at hamem
          simp only [List.mem_singleton] at hamem
          have : a.student_id = grp.leader_id := by rw [hamem]
          rw [ham, hleader] at this
          exact h2 this
        · simp [hal]
      refine ⟨?_, ?_, ?_, ?_, ?_, ?_⟩ <;> dsimp only
      · rw [map_updateFirstP (f := decQuantity) (g := Group.id) (fun x => rfl)]
        exact hwf.ids_nodup
      · intro g2 hg2
        rcases mem_of_mem_updateFirstP hg2 with h | ⟨x, hx, rfl⟩
        · exact hwf.group_id_lt g2 h
        · exact hwf.group_id_lt x hx
      · intro x hx
        exact hwf.member_group_lt x (List.eraseP_subset _ hx)
      · exact hwf.students_nodup.sublist
          ((List.eraseP_sublist db.members).map GroupMember.student_id)
      · intro g2 hg2
        rw [hupd] at hg2
        rw [herase]
        have hcnt : groupCount db.members g2.id =
            groupCount (A ++ B) g2.id + if a.group_id = g2.id then 1 else 0 := by
          rw [hms]
          exact groupCount_middle A B a g2.id
        rcases List.mem_append.mp hg2 with h | h
        · have hne2 : g2.id ≠ g := hid ▸ hne g2 (Or.inl h)
          have hq := hwf.quantity_eq g2 (hgs ▸ List.mem_append_left _ h)
          rw [if_neg (by omega)] at hcnt
          rw [hq, hcnt]
          omega
        · rcases List.mem_cons.mp h with rfl | h
          · have hq := hwf.quantity_eq grp (findGroup_mem hfind)
            have hcnt' : groupCount db.members grp.id = groupCount (A ++ B) grp.id + 1 := by
              have hmid := groupCount_middle A B a grp.id
              rw [← hms] at hmid
              rw [hmid, if_pos (by rw [hag, ← hid])]
            show (decQuantity grp).quantity = ((groupCount (A ++ B) (decQuantity grp).id : Nat) : Int)
            have hq2 : (decQuantity grp).quantity = grp.quantity - 1 := rfl
            have hgid : (decQuantity grp).id = grp.id := rfl
            rw [hq2, hgid, hq]
            omega
          · have hne2 : g2.id ≠ g := hid ▸ hne g2 (Or.inr h)
            have hq := hwf.quantity_eq g2
              (hgs ▸ List.mem_append_right _ (List.mem_cons_of_mem _ h))
            rw [if_neg (by omega)] at hcnt
            rw [hq, hcnt]
            omega
      · intro g2 hg2
        rw [hupd] at hg2
        rw [herase]
        rcases List.mem_append.mp hg2 with h | h
        · have hrows : leaderRows (A ++ B) g2.id = leaderRows db.members g2.id := by
            rw [hms]
            refine (leaderRows_middle_of_neg ?_).symm
            have hne2 : g2.id ≠ g := hid ▸ hne g2 (Or.inl h)
            simp [hag, hne2, Ne.symm hne2]
          rw [hrows]
          exact hwf.leader_unique g2 (hgs ▸ List.mem_append_left _ h)
        · rcases List.mem_cons.mp h with rfl | h
          · have hrows : leaderRows (A ++ B) (decQuantity grp).id =
                leaderRows db.members grp.id := by
              rw [hms]
              exact (leaderRows_middle_of_neg ha_not_leader_row).symm
            rw [hrows]
            exact hwf.leader_unique grp (findGroup_mem hfind)
          · have hrows : leaderRows (A ++ B) g2.id = leaderRows db.members g2.id := by
              rw [hms]
              refine (leaderRows_middle_of_neg ?_).symm
              have hne2 : g2.id ≠ g := hid ▸ hne g2 (Or.inr h)
              simp [hag, hne2, Ne.symm hne2]
            rw [hrows]
            exact hwf.leader_unique g2
              (hgs ▸ List.mem_append_right _ (List.mem_cons_of_mem _ h))

theorem countP_memberPred_le_one {ms : List GroupMember}
    (hn : (ms.map GroupMember.student_id).Nodup) (gid sid : Nat) :
    ms.countP (memberPred gid sid) ≤ 1 := by
  refine le_trans (List.countP_mono_left ?_) (countP_le_one_of_nodup_map hn sid)
  intro x hx hpx
  simp only [memberPred, Bool.and_eq_true, decide_eq_true_eq] at hpx
  simp [hpx.2]

/-- The per-row net effect of `transfer_leader`'s two flag writes, when the
store holds at most one membership row per student. -/
def transferFlag (gid nid cid : Nat) (x : GroupMember) : GroupMember :=
  if memberPred gid nid x then setIsLeader true x
  else if memberPred gid cid x then setIsLeader false x
  else x

theorem transferFlag_of_group_ne {gid nid cid : Nat} {x : GroupMember}
    (h : x.group_id ≠ gid) : transferFlag gid nid cid x = x := by
  unfold transferFlag
  rw [if_neg (by simp [memberPred, h]), if_neg (by simp [memberPred, h])]

theorem transferFlag_group_id (gid nid cid : Nat) (x : GroupMember) :
    (transferFlag gid nid cid x).group_id = x.group_id := by
  unfold transferFlag
  by_cases ha : memberPred gid nid x = true
  · rw [if_pos ha]
    rfl
  · rw [if_neg ha]
    by_cases hb : memberPred gid cid x = true
    · rw [if_pos hb]
      rfl
    · rw [if_neg hb]

theorem leaderRows_map_transferFlag_of_ne (ms : List GroupMember) (g n c gid : Nat)
    (hne : gid ≠ g) :
    leaderRows (ms.map (transferFlag g n c)) gid = leaderRows ms gid := by
  unfold leaderRows
  rw [List.filter_map]
  have hfc : ∀ x ∈ ms,
      ((fun m => decide (m.group_id = gid) && m.is_leader) ∘ transferFlag g n c) x
      = (fun m => decide (m.group_id = gid) && m.is_leader) x := by
    intro x _
    simp only [Function.comp_apply]
    by_cases hxg : x.group_id = g
    · have e1 : decide ((transferFlag g n c x).group_id = gid) = false := by
        rw [transferFlag_group_id, hxg]
        simp [Ne.symm hne]
      have e2 : decide (x.group_id = gid) = false := by
        rw [hxg]
        simp [Ne.symm hne]
      rw [e1, e2]
      simp
    · rw [transferFlag_of_group_ne hxg]
  rw [List.filter_congr hfc]
  have hpt : ∀ x ∈ ms.filter (fun m => decide (m.group_id = gid) && m.is_leader),
      transferFlag g n c x = (fun y => y) x := by
    intro x hx
    have := (List.mem_filter.mp hx).2
    simp only [Bool.and_eq_true, decide_eq_true_eq] at this
    exact transferFlag_of_group_ne (by rw [this.1]; exact hne)
  rw [List.map_congr_left hpt, List.map_id']

/-- `transfer_leader` preserves well-formedness. -/
theorem wf_transfer_leader (db : DB) (g n c : Nat) (hwf : WF db) :
    WF (resState (transfer_leader db g n c)) := by
  cases hfind : findGroup db g with
  | none =>
    simp only [transfer_leader, hfind]
    exact hwf
  | some grp =>
    simp only [transfer_leader, hfind]
    by_cases h1 : grp.leader_id ≠ c
    · simp only [if_pos h1]
      exact hwf
    simp only [if_neg h1]
    cases hnew : db.members.find? (memberPred g n) with
    | none =>
      simp only [hnew, Option.isNone_none, if_true]
      exact hwf
    | some nrow =>
      simp only [hnew, Option.isNone_some, Bool.false_eq_true, if_false]
      cases hcur : db.members.find? (memberPred g c) with
      | none =>
        simp only [hcur, Option.isNone_none, if_true]
        exact hwf
      | some crow =>
        simp only [hcur, Option.isNone_some, Bool.false_eq_true, if_false, resState]
        have hid : grp.id = g := findGroup_id hfind
        have hcl : grp.leader_id = c := not_not.mp h1
        have hcount_cur := countP_memberPred_le_one hwf.students_nodup g c
        have hcount_new := countP_memberPred_le_one hwf.students_nodup g n
        have hnrowpred : memberPred g n nrow = true := List.find?_some hnew
        have hng : nrow.group_id = g := by
          simp only [memberPred, Bool.and_eq_true, decide_eq_true_eq] at hnrowpred
          exact hnrowpred.1
        have hns : nrow.student_id = n := by
          simp only [memberPred, Bool.and_eq_true, decide_eq_true_eq] at hnrowpred
          exact hnrowpred.2
        have hfd : db.groups.find? (fun x => decide (x.id = g)) = some grp := hfind
        obtain ⟨L1, L2, hgs, hnomatch, hupd⟩ :=
          updateFirstP_of_find?_eq_some (setLeaderId n) hfd
        have hne := ne_id_of_nodup_decomp hwf.ids_nodup hgs
        have hnotlead : ∀ x ∈ db.members, x.group_id = g → x.is_leader = true →
            x.student_id = c := by
          intro x hx hxg hxl
          have hmemrow : x ∈ leaderRows db.members grp.id := by
            unfold leaderRows
            exact List.mem_filter.mpr ⟨hx, by simp [hxg, hid, hxl]⟩
          rw [hwf.leader_unique grp (findGroup_mem hfind)] at hmemrow
          simp only [List.mem_singleton] at hmemrow
          rw [hmemrow]
          exact hcl
        have hcnt1 : (updateFirstP (memberPred g c) (setIsLeader false) db.members).countP
            (memberPred g n) ≤ 1 := by
          rw [countP_updateFirstP (p := memberPred g c) (q := memberPred g n)
            (f := setIsLeader false) (fun x => rfl)]
          exact hcount_new
        have hms2 : updateFirstP (memberPred g n) (setIsLeader true)
              (updateFirstP (memberPred g c) (setIsLeader false) db.members)
            = db.members.map (transferFlag g n c) := by
          rw [updateFirstP_eq_map hcnt1, updateFirstP_eq_map hcount_cur, List.map_map]
          apply List.map_congr_left
          intro x _
          simp only [Function.comp_apply, transferFlag]
          by_cases hn1 : memberPred g n x = true
          · by_cases hc1 : memberPred g c x = true
            · rw [if_pos hc1, if_pos (show memberPred g n (setIsLeader false x) = true from hn1),
                if_pos hn1]
              rfl
            · rw [if_neg hc1, if_pos hn1]
          · by_cases hc1 : memberPred g c x = true
            · rw [if_pos hc1,
                if_neg (show ¬memberPred g n (setIsLeader false x) = true from hn1),
                if_neg hn1]
            · rw [if_neg hc1, if_neg hn1]
        refine ⟨?_, ?_, ?_, ?_, ?_, ?_⟩ <;> dsimp only
        · rw [map_updateFirstP (f := setLeaderId n) (g := Group.id) (fun x => rfl)]
          exact hwf.ids_nodup
        · intro g2 hg2
          rcases mem_of_mem_updateFirstP hg2 with h | ⟨x, hx, rfl⟩
          · exact hwf.group_id_lt g2 h
          · exact hwf.group_id_lt x hx
        · intro m hm
          rcases mem_of_mem_updateFirstP hm with h | ⟨x, hx, rfl⟩
          · rcases mem_of_mem_updateFirstP h with h' | ⟨y, hy, rfl⟩
            · exact hwf.member_group_lt m h'
            · exact hwf.member_group_lt y hy
          · rcases mem_of_mem_updateFirstP hx with h' | ⟨y, hy, rfl⟩
            · exact hwf.member_group_lt x h'
            · exact hwf.member_group_lt y hy
        · rw [map_updateFirstP (f := setIsLeader true) (g := GroupMember.student_id)
              (fun x => rfl),
            map_updateFirstP (f := setIsLeader false) (g := GroupMember.student_id)
              (fun x => rfl)]
          exact hwf.students_nodup
        · intro g2 hg2
          rw [hupd] at hg2
          have hcnteq : ∀ gid : Nat,
              groupCount (updateFirstP (memberPred g n) (setIsLeader true)
                (updateFirstP (memberPred g c) (setIsLeader false) db.members)) gid
              = groupCount db.members gid := by
            intro gid
            unfold groupCount
            rw [countP_updateFirstP (p := memberPred g n)
                (q := fun m => decide (m.group_id = gid)) (f := setIsLeader true)
                (fun x => rfl),
              countP_updateFirstP (p := memberPred g c)
                (q := fun m => decide (m.group_id = gid)) (f := setIsLeader false)
                (fun x => rfl)]
          rw [hcnteq]
          rcases List.mem_append.mp hg2 with h | h
          · exact hwf.quantity_eq g2 (hgs ▸ List.mem_append_left _ h)
          · rcases List.mem_cons.mp h with rfl | h
            · have hq := hwf.quantity_eq grp (findGroup_mem hfind)
              exact hq
            · exact hwf.quantity_eq g2
                (hgs ▸ List.mem_append_right _ (List.mem_cons_of_mem _ h))
        · intro g2 hg2
          rw [hupd] at hg2
          rw [hms2]
          rcases List.mem_append.mp hg2 with h | h
          · have hne2 : g2.id ≠ g := hid ▸ hne g2 (Or.inl h)
            rw [leaderRows_map_transferFlag_of_ne db.members g n c g2.id hne2]
            exact hwf.leader_unique g2 (hgs ▸ List.mem_append_left _ h)
          · rcases List.mem_cons.mp h with rfl | h
            · have hid2 : (setLeaderId n grp).id = g := hid
              unfold leaderRows
              rw [hid2]
              rw [List.filter_map]
              have hfc : ∀ x ∈ db.members,
                  ((fun m => decide (m.group_id = g) && m.is_leader) ∘
                    transferFlag g n c) x = memberPred g n x := by
                intro x hx
                simp only [Function.comp_apply]
                by_cases hn1 : memberPred g n x = true
                · have hF : transferFlag g n c x = setIsLeader true x := by
                    unfold transferFlag
                    rw [if_pos hn1]
                  rw [hF]
                  have hxg : x.group_id = g := by
                    simp only [memberPred, Bool.and_eq_true, decide_eq_true_eq] at hn1
                    exact hn1.1
                  simp [setIsLeader, hxg, hn1]
                · by_cases hc1 : memberPred g c x = true
                  · have hF : transferFlag g n c x = setIsLeader false x := by
                      unfold transferFlag
                      rw [if_neg hn1, if_pos hc1]
                    rw [hF]
                    rw [Bool.not_eq_true] at hn1
                    simp [setIsLeader, hn1]
                  · have hF : transferFlag g n c x = x := by
                      unfold transferFlag
                      rw [if_neg hn1, if_neg hc1]
                    rw [hF]
                    rw [Bool.not_eq_true] at hn1
                    by_cases hxg : x.group_id = g
                    · have hxl : x.is_leader = false := by
                        by_cases hl' : x.is_leader = true
                        · exfalso
                          apply hc1
                          have hst := hnotlead x hx hxg hl'
                          simp [memberPred, hxg, hst]
                        · simpa using hl'
                      simp [hxg, hxl, hn1]
                    · simp [hxg, hn1]
              rw [List.filter_congr hfc]
              rw [filter_eq_of_countP_le_one hcount_new hnew]
              rw [List.map_cons, List.map_nil]
              have hflag : transferFlag g n c nrow = setIsLeader true nrow := by
                unfold transferFlag
                rw [if_pos hnrowpred]
              rw [hflag]
              have hrow : setIsLeader true nrow = (⟨g, n, true⟩ : GroupMember) := by
                unfold setIsLeader
                rw [← hng, ← hns]
              rw [hrow]
              rfl
            · have hne2 : g2.id ≠ g := hid ▸ hne g2 (Or.inr h)
              rw [leaderRows_map_transferFlag_of_ne db.members g n c g2.id hne2]
              exact hwf.leader_unique g2
                (hgs ▸ List.mem_append_right _ (List.mem_cons_of_mem _ h))

/-- Updating one group row without touching its id, quantity or leader
preserves well-formedness, whatever happens to the thesis table. -/
theorem wf_updateGroups (db : DB) (p : Group → Bool) (f : Group → Group)
    (hid : ∀ x, (f x).id = x.id) (hq : ∀ x, (f x).quantity = x.quantity)
    (hl : ∀ x, (f x).leader_id = x.leader_id) (hwf : WF db) (ts : List Thesis) :
    WF { db with groups := updateFirstP p f db.groups, theses := ts } := by
  refine ⟨?_, ?_, ?_, ?_, ?_, ?_⟩ <;> dsimp only
  · rw [map_updateFirstP (f := f) (g := Group.id) hid]
    exact hwf.ids_nodup
  · intro g2 hg2
    rcases mem_of_mem_updateFirstP hg2 with h | ⟨x, hx, rfl⟩
    · exact hwf.group_id_lt g2 h
    · rw [hid]
      exact hwf.group_id_lt x hx
  · exact hwf.member_group_lt
  · exact hwf.students_nodup
  · intro g2 hg2
    rcases mem_of_mem_updateFirstP hg2 with h | ⟨x, hx, rfl⟩
    · exact hwf.quantity_eq g2 h
    · rw [hq, hid]
      exact hwf.quantity_eq x hx
  · intro g2 hg2
    rcases mem_of_mem_updateFirstP hg2 with h | ⟨x, hx, rfl⟩
    · exact hwf.leader_unique g2 h
    · rw [hid, hl]
      exact hwf.leader_unique x hx

/-- `update_group_name` preserves well-formedness. -/
theorem wf_update_group_name (db : DB) (g : Nat) (nm : String) (u : Nat) (hwf : WF db) :
    WF (resState (update_group_name db g nm u)) := by
  cases hfind : findGroup db g with
  | none =>
    simp only [update_group_name, hfind]
    exact hwf
  | some grp =>
    simp only [update_group_name, hfind]
    by_cases h1 : grp.leader_id ≠ u
    · simp only [if_pos h1]
      exact hwf
    simp only [if_neg h1, resState]
    exact wf_updateGroups db (fun x => decide (x.id = g)) (setName nm)
      (fun x => rfl) (fun x => rfl) (fun x => rfl) hwf db.theses

/-- `register_thesis_for_group` preserves well-formedness. -/
theorem wf_register_thesis (db : DB) (g t u : Nat) (hwf : WF db) :
    WF (resState (register_thesis_for_group db g t u)) := by
  cases hfind : findGroup db g with
  | none =>
    simp only [register_thesis_for_group, hfind]
    exact hwf
  | some grp =>
    simp only [register_thesis_for_group, hfind]
    by_cases h1 : grp.leader_id ≠ u
    · simp only [if_pos h1]
      exact hwf
    simp only [if_neg h1]
    by_cases h2 : grp.thesis_id.isSome = true
    · simp only [h2, if_true]
      exact hwf
    simp only [Bool.not_eq_true] at h2
    simp only [h2, Bool.false_eq_true, if_false]
    cases hth : db.theses.find? (fun x => decide (x.id = t)) with
    | none =>
      simp only [hth]
      exact hwf
    | some th =>
      simp only [hth]
      by_cases h3 : (db.groups.find? (fun x => decide (x.thesis_id = some t))).isSome = true
      · simp only [h3, if_true]
        exact hwf
      simp only [Bool.not_eq_true] at h3
      simp only [h3, Bool.false_eq_true, if_false, resState]
      exact wf_updateGroups db (fun x => decide (x.id = g)) (setThesisId t)
        (fun x => rfl) (fun x => rfl) (fun x => rfl) hwf
        (updateFirstP (fun x => decide (x.id = t)) setRegistered db.theses)

/-- `delete_group` preserves well-formedness. -/
theorem wf_delete_group (db : DB) (g u : Nat) (hwf : WF db) :
    WF (resState (delete_group db g u)) := by
  cases hfind : findGroup db g with
  | none =>
    simp only [delete_group, hfind]
    exact hwf
  | some grp =>
    simp only [delete_group, hfind]
    by_cases h1 : grp.leader_id ≠ u
    · simp only [if_pos h1]
      exact hwf
    simp only [if_neg h1]
    by_cases h2 : grp.thesis_id.isSome = true
    · simp only [h2, if_true]
      exact hwf
    simp only [Bool.not_eq_true] at h2
    simp only [h2, Bool.false_eq_true, if_false, resState]
    have hgmem : grp ∈ db.groups := findGroup_mem hfind
    have hgpred : decide (grp.id = g) = true := by
      simp [findGroup_id hfind]
    obtain ⟨a, l1, l2, hl1, hpa, hgs, herase⟩ :=
      List.exists_of_eraseP (p := fun x => decide (x.id = g)) hgmem hgpred
    have haid : a.id = g := by simpa using hpa
    have hne := ne_id_of_nodup_decomp hwf.ids_nodup hgs
    refine ⟨?_, ?_, ?_, ?_, ?_, ?_⟩ <;> dsimp only
    · exact hwf.ids_nodup.sublist ((List.eraseP_sublist db.groups).map Group.id)
    · intro g2 hg2
      exact hwf.group_id_lt g2 (List.eraseP_subset _ hg2)
    · intro m hm
      exact hwf.member_group_lt m (List.mem_of_mem_filter hm)
    · exact hwf.students_nodup.sublist
        ((List.filter_sublist db.members).map GroupMember.student_id)
    · intro g2 hg2
      rw [herase] at hg2
      have hne2 : g2.id ≠ g := by
        have := hne g2 (List.mem_append.mp hg2)
        omega
      have hcnt : groupCount (db.members.filter (fun m => !decide (m.group_id = g))) g2.id
          = groupCount db.members g2.id := by
        unfold groupCount
        rw [List.countP_filter]
        apply List.countP_congr
        intro m _
        by_cases hm : m.group_id = g2.id
        · simp [hm, hne2]
        · simp [hm]
      rw [hcnt]
      exact hwf.quantity_eq g2
        (hgs ▸ (List.mem_append.mp hg2).elim (List.mem_append_left _)
          (fun h => List.mem_append_right _ (List.mem_cons_of_mem _ h)))
    · intro g2 hg2
      rw [herase] at hg2
      have hne2 : g2.id ≠ g := by
        have := hne g2 (List.mem_append.mp hg2)
        omega
      have hrows : leaderRows (db.members.filter (fun m => !decide (m.group_id = g))) g2.id
          = leaderRows db.members g2.id := by
        unfold leaderRows
        rw [List.filter_filter]
        apply List.filter_congr
        intro m _
        by_cases hm : m.group_id = g2.id
        · simp [hm, hne2]
        · simp [hm]
      rw [hrows]
      exact hwf.leader_unique g2
        (hgs ▸ (List.mem_append.mp hg2).elim (List.mem_append_left _)
          (fun h => List.mem_append_right _ (List.mem_cons_of_mem _ h)))

/-- Out-of-scope table insertions do not touch groups or members. -/
theorem wf_of_same_core {db db' : DB} (hwf : WF db) (hg : db'.groups = db.groups)
    (hm : db'.members = db.members) (hn : db'.nextGroupId = db.nextGroupId) : WF db' := by
  refine ⟨?_, ?_, ?_, ?_, ?_, ?_⟩
  · rw [hg]
    exact hwf.ids_nodup
  · rw [hg, hn]
    exact hwf.group_id_lt
  · rw [hm, hn]
    exact hwf.member_group_lt
  · rw [hm]
    exact hwf.students_nodup
  · rw [hg, hm]
    exact hwf.quantity_eq
  · rw [hg, hm]
    exact hwf.leader_unique

/-- Every transition preserves well-formedness. -/
theorem wf_step {db db' : DB} (hwf : WF db) (hstep : Step db db') : WF db' := by
  cases hstep with
  | createG name uid => exact wf_create_group db name uid hwf
  | addM g s l => exact wf_add_member db g s l hwf
  | removeM g m l => exact wf_remove_member db g m l hwf
  | transferL g n c => exact wf_transfer_leader db g n c hwf
  | renameG g nm u => exact wf_update_group_name db g nm u hwf
  | deleteG g u => exact wf_delete_group db g u hwf
  | registerT g t u => exact wf_register_thesis db g t u hwf
  | newThesis t => exact wf_of_same_core hwf rfl rfl rfl
  | newInformation i => exact wf_of_same_core hwf rfl rfl rfl
  | newStudentInfo s => exact wf_of_same_core hwf rfl rfl rfl

/-- The empty store is well-formed. -/
theorem wf_initDB : WF initDB := by
  refine ⟨?_, ?_, ?_, ?_, ?_, ?_⟩ <;> simp [initDB]

/-- Every reachable store is well-formed. -/
theorem reachable_wf {db : DB} (h : Reachable db) : WF db := by
  induction h with
  | init => exact wf_initDB
  | step hr hs ih => exact wf_step ih hs

/-! ### Observation helpers for the claim theorems -/

theorem findGroup_updateFirstP {db : DB} {g : Nat} {grp : Group} (f : Group → Group)
    (hf : findGroup db g = some grp) (hfid : (f grp).id = grp.id) :
    (updateFirstP (fun x => decide (x.id = g)) f db.groups).find?
      (fun x => decide (x.id = g)) = some (f grp) := by
  obtain ⟨L1, L2, hgs, hn1, hupd⟩ := updateFirstP_of_find?_eq_some f hf
  rw [hupd, List.find?_append, List.find?_eq_none.mpr hn1, Option.none_or]
  rw [List.find?_cons_of_pos]
  rw [hfid]
  simpa using findGroup_id hf

/-- On failure, the store carried out of the call is the pre-call store. -/
def errFrame (db : DB) : OpResult α → Prop
  | .ok _ _ => True
  | .err db' _ => db' = db

/-- C1: the `add_member` checks run in order — group lookup (NotFound),
leader check (Forbidden), capacity check (Conflict at quantity ≥ 4),
global-membership check (Conflict) — and on success the call returns the
inserted row (group_id, student_id, is_leader = false), appends exactly
that row to the member table and bumps exactly the target group's
quantity by one; `is_member_of_any_group` is precisely "some GroupMember
row carries this student id". -/
theorem addMember_cases (db : DB) (g s l : Nat) :
    (is_member_of_any_group db s = true ↔ ∃ m ∈ db.members, m.student_id = s) ∧
    (findGroup db g = none → add_member db g s l = .err db .notFound) ∧
    (∀ grp, findGroup db g = some grp →
      (grp.leader_id ≠ l → add_member db g s l = .err db .forbidden) ∧
      (grp.leader_id = l → 4 ≤ grp.quantity →
        add_member db g s l = .err db .conflict) ∧
      (grp.leader_id = l → grp.quantity < 4 → is_member_of_any_group db s = true →
        add_member db g s l = .err db .conflict) ∧
      (grp.leader_id = l → grp.quantity < 4 → is_member_of_any_group db s = false →
        add_member db g s l =
          .ok { db with
                  members := db.members ++ [⟨g, s, false⟩],
                  groups := updateFirstP (fun x => decide (x.id = g)) incQuantity
                    db.groups }
            ⟨g, s, false⟩ ∧
        findGroup { db with
                  members := db.members ++ [⟨g, s, false⟩],
                  groups := updateFirstP (fun x => decide (x.id = g)) incQuantity
                    db.groups } g
          = some { grp with quantity := grp.quantity + 1 })) := by
  refine ⟨?_, ?_, ?_⟩
  · unfold is_member_of_any_group
    rw [List.find?_isSome]
    constructor
    · rintro ⟨m, hm, hp⟩
      exact ⟨m, hm, by simpa using hp⟩
    · rintro ⟨m, hm, hp⟩
      exact ⟨m, hm, by simpa using hp⟩
  · intro h
    simp only [add_member, h]
  · intro grp hf
    refine ⟨?_, ?_, ?_, ?_⟩
    · intro h1
      simp only [add_member, hf, if_pos h1]
    · intro h1 h2
      simp only [add_member, hf, if_neg (not_not.mpr h1), if_pos h2]
    · intro h1 h2 h3
      simp only [add_member, hf, if_neg (not_not.mpr h1), if_neg (not_le.mpr h2), h3,
        if_true]
    · intro h1 h2 h3
      constructor
      · simp only [add_member, hf, if_neg (not_not.mpr h1), if_neg (not_le.mpr h2), h3,
          Bool.false_eq_true, if_false]
      · exact findGroup_updateFirstP incQuantity hf rfl

/-- C2: every write operation of the service is atomic — whenever a call
fails, the store it leaves behind is exactly the pre-call store (every
raise precedes every mutation), and a successful call installs all its
mutations in the one store it commits. -/
theorem write_ops_atomic (db : DB) :
    (∀ name uid, errFrame db (create_group db name uid)) ∧
    (∀ g s l, errFrame db (add_member db g s l)) ∧
    (∀ g m l, errFrame db (remove_member db g m l)) ∧
    (∀ g n c, errFrame db (transfer_leader db g n c)) ∧
    (∀ g nm u, errFrame db (update_group_name db g nm u)) ∧
    (∀ g u, errFrame db (delete_group db g u)) ∧
    (∀ g t u, errFrame db (register_thesis_for_group db g t u)) := by
  refine ⟨?_, ?_, ?_, ?_, ?_, ?_, ?_⟩
  · intro name uid
    unfold create_group
    repeat first
      | trivial
      | split
  · intro g s l
    unfold add_member
    repeat first
      | trivial
      | split
  · intro g m l
    unfold remove_member
    repeat first
      | trivial
      | split
  · intro g n c
    unfold transfer_leader
    repeat first
      | trivial
      | split
  · intro g nm u
    unfold update_group_name
    repeat first
      | trivial
      | split
  · intro g u
    unfold delete_group
    repeat first
      | trivial
      | split
  · intro g t u
    unfold register_thesis_for_group
    repeat first
      | trivial
      | split

/-- A one-group store: user 10 leads group 0 ("G"). -/
def exDB1 : DB := ⟨[⟨0, "G", 10, 1, none⟩], [⟨0, 10, true⟩], [], [], [], [], 1⟩

/-- C1 witness: at a concrete store the success branch of `add_member`
inserts the row for student 30 and bumps group 0 to quantity 2. -/
theorem addMember_cases_witness :
    add_member exDB1 0 30 10 =
      OpResult.ok { exDB1 with
          members := exDB1.members ++ [⟨0, 30, false⟩],
          groups := updateFirstP (fun x => decide (x.id = 0)) incQuantity exDB1.groups }
        ⟨0, 30, false⟩ ∧
    findGroup { exDB1 with
          members := exDB1.members ++ [⟨0, 30, false⟩],
          groups := updateFirstP (fun x => decide (x.id = 0)) incQuantity exDB1.groups } 0
      = some ⟨0, "G", 10, 2, none⟩ :=
  ((addMember_cases exDB1 0 30 10).2.2 ⟨0, "G", 10, 1, none⟩ rfl).2.2.2 rfl (by decide) rfl

/-- C8: the `remove_member` checks run in order — group lookup (NotFound),
leader check (Forbidden), self-removal check (Conflict exactly when the
target is the caller-leader), membership lookup in the group (NotFound) —
and on success the call deletes exactly the first row matching
(group, member), shrinking the member table by one row and that group's
member count and cached quantity by exactly one. -/
theorem removeMember_cases (db : DB) (g m l : Nat) :
    (findGroup db g = none → remove_member db g m l = .err db .notFound) ∧
    (∀ grp, findGroup db g = some grp →
      (grp.leader_id ≠ l → remove_member db g m l = .err db .forbidden) ∧
      (grp.leader_id = l → m = l → remove_member db g m l = .err db .conflict) ∧
      (grp.leader_id = l → m ≠ l → db.members.find? (memberPred g m) = none →
        remove_member db g m l = .err db .notFound) ∧
      (grp.leader_id = l → m ≠ l → ∀ r, db.members.find? (memberPred g m) = some r →
        remove_member db g m l = .ok { db with
            members := db.members.eraseP (memberPred g m),
            groups := updateFirstP (fun x => decide (x.id = g)) decQuantity db.groups } () ∧
        (db.members.eraseP (memberPred g m)).length + 1 = db.members.length ∧
        groupCount (db.members.eraseP (memberPred g m)) g + 1 = groupCount db.members g ∧
        findGroup { db with
            members := db.members.eraseP (memberPred g m),
            groups := updateFirstP (fun x => decide (x.id = g)) decQuantity db.groups } g
          = some { grp with quantity := grp.quantity - 1 })) := by
  refine ⟨?_, ?_⟩
  · intro h
    simp only [remove_member, h]
  · intro grp hf
    refine ⟨?_, ?_, ?_, ?_⟩
    · intro h1
      simp only [remove_member, hf, if_pos h1]
    · intro h1 h2
      simp only [remove_member, hf, if_neg (not_not.mpr h1), if_pos h2]
    · intro h1 h2 h3
      simp only [remove_member, hf, if_neg (not_not.mpr h1), if_neg h2, h3,
        Option.isNone_none, if_true]
    · intro h1 h2 r hr
      have hrm : r ∈ db.members := List.mem_of_find?_eq_some hr
      have hrp : memberPred g m r = true := List.find?_some hr
      refine ⟨?_, ?_, ?_, ?_⟩
      · simp only [remove_member, hf, if_neg (not_not.mpr h1), if_neg h2, hr,
          Option.isNone_some, Bool.false_eq_true, if_false]
      · rw [List.length_eraseP_of_mem hrm hrp]
        have := List.length_pos.mpr (List.ne_nil_of_mem hrm)
        omega
      · obtain ⟨a, A, B, hA, hpa, hms, herase⟩ := List.exists_of_eraseP hrm hrp
        have hag : a.group_id = g := by
          simp only [memberPred, Bool.and_eq_true, decide_eq_true_eq] at hpa
          exact hpa.1
        rw [herase, hms, groupCount_middle, if_pos hag]
      · exact findGroup_updateFirstP decQuantity hf rfl

/-- A store with group 0 (leader 10, quantity 2) and member 30. -/
def exDB2 : DB :=
  ⟨[⟨0, "G", 10, 2, none⟩], [⟨0, 10, true⟩, ⟨0, 30, false⟩], [], [], [], [], 1⟩

/-- C8 witness: removing member 30 from group 0 deletes exactly that row
and brings the quantity back to 1. -/
theorem removeMember_cases_witness :
    remove_member exDB2 0 30 10 = OpResult.ok { exDB2 with
        members := exDB2.members.eraseP (memberPred 0 30),
        groups := updateFirstP (fun x => decide (x.id = 0)) decQuantity exDB2.groups } () ∧
    (exDB2.members.eraseP (memberPred 0 30)).length + 1 = exDB2.members.length ∧
    groupCount (exDB2.members.eraseP (memberPred 0 30)) 0 + 1
      = groupCount exDB2.members 0 ∧
    findGroup { exDB2 with
        members := exDB2.members.eraseP (memberPred 0 30),
        groups := updateFirstP (fun x => decide (x.id = 0)) decQuantity exDB2.groups } 0
      = some ⟨0, "G", 10, 1, none⟩ :=
  ((removeMember_cases exDB2 0 30 10).2 ⟨0, "G", 10, 2, none⟩ rfl).2.2.2 rfl (by decide)
    ⟨0, 30, false⟩ rfl

/-- C9: the `delete_group` checks run in order — NotFound, Forbidden,
Conflict when a thesis is attached — and on success the call keeps
exactly the Invite and GroupMember rows of other groups, removes the
group row, after which the group is no longer found while every other
group is found unchanged. -/
theorem deleteGroup_cases (db : DB) (g u : Nat) :
    (findGroup db g = none → delete_group db g u = .err db .notFound) ∧
    (∀ grp, findGroup db g = some grp →
      (grp.leader_id ≠ u → delete_group db g u = .err db .forbidden) ∧
      (grp.leader_id = u → grp.thesis_id.isSome = true →
        delete_group db g u = .err db .conflict) ∧
      (grp.leader_id = u → grp.thesis_id = none →
        delete_group db g u = .ok { db with
            invites := db.invites.filter (fun i => !decide (i.group_id = g)),
            members := db.members.filter (fun m => !decide (m.group_id = g)),
            groups := db.groups.eraseP (fun x => decide (x.id = g)) } () ∧
        ((db.groups.map Group.id).Nodup →
          findGroup { db with
              invites := db.invites.filter (fun i => !decide (i.group_id = g)),
              members := db.members.filter (fun m => !decide (m.group_id = g)),
              groups := db.groups.eraseP (fun x => decide (x.id = g)) } g = none) ∧
        (∀ gid, gid ≠ g →
          findGroup { db with
              invites := db.invites.filter (fun i => !decide (i.group_id = g)),
              members := db.members.filter (fun m => !decide (m.group_id = g)),
              groups := db.groups.eraseP (fun x => decide (x.id = g)) } gid
            = findGroup db gid))) := by
  refine ⟨?_, ?_⟩
  · intro h
    simp only [delete_group, h]
  · intro grp hf
    have hgmem : grp ∈ db.groups := findGroup_mem hf
    have hgpred : decide (grp.id = g) = true := by
      simp [findGroup_id hf]
    refine ⟨?_, ?_, ?_⟩
    · intro h1
      simp only [delete_group, hf, if_pos h1]
    · intro h1 h2
      simp only [delete_group, hf, if_neg (not_not.mpr h1), h2, if_true]
    · intro h1 h2
      obtain ⟨a, l1, l2, hl1, hpa, hgs, herase⟩ :=
        List.exists_of_eraseP (p := fun x => decide (x.id = g)) hgmem hgpred
      have haid : a.id = g := by simpa using hpa
      refine ⟨?_, ?_, ?_⟩
      · simp only [delete_group, hf, if_neg (not_not.mpr h1), h2, Option.isSome_none,
          Bool.false_eq_true, if_false]
      · intro hnodup
        have hne := ne_id_of_nodup_decomp hnodup hgs
        unfold findGroup
        dsimp only
        rw [herase, List.find?_append]
        rw [List.find?_eq_none.mpr (fun y hy => by simpa using hl1 y hy)]
        rw [Option.none_or, List.find?_eq_none]
        intro y hy
        have := hne y (Or.inr hy)
        simp only [decide_eq_true_eq]
        rw [haid] at this
        exact this
      · intro gid hgid
        unfold findGroup
        dsimp only
        rw [herase, hgs, List.find?_append, List.find?_append]
        rw [List.find?_cons_of_neg _
          (by simp only [decide_eq_true_eq, haid]; exact fun h => hgid h.symm)]

/-- A two-group store with invites: group 0 (leader 10) has no thesis,
group 1 (leader 20) holds thesis 5. -/
def exDB3 : DB :=
  ⟨[⟨0, "G", 10, 1, none⟩, ⟨1, "H", 20, 1, some 5⟩],
   [⟨0, 10, true⟩, ⟨1, 20, true⟩], [⟨0, 0⟩, ⟨1, 1⟩], [⟨5, 2⟩], [], [], 2⟩

/-- C9 witness: deleting group 0 removes its invite and member rows and
its group row, while group 1 and its rows survive unchanged. -/
theorem deleteGroup_cases_witness :
    delete_group exDB3 0 10 = OpResult.ok { exDB3 with
        invites := exDB3.invites.filter (fun i => !decide (i.group_id = 0)),
        members := exDB3.members.filter (fun m => !decide (m.group_id = 0)),
        groups := exDB3.groups.eraseP (fun x => decide (x.id = 0)) } () ∧
    findGroup { exDB3 with
        invites := exDB3.invites.filter (fun i => !decide (i.group_id = 0)),
        members := exDB3.members.filter (fun m => !decide (m.group_id = 0)),
        groups := exDB3.groups.eraseP (fun x => decide (x.id = 0)) } 0 = none ∧
    findGroup { exDB3 with
        invites := exDB3.invites.filter (fun i => !decide (i.group_id = 0)),
        members := exDB3.members.filter (fun m => !decide (m.group_id = 0)),
        groups := exDB3.groups.eraseP (fun x => decide (x.id = 0)) } 1
      = findGroup exDB3 1 := by
  have h := ((deleteGroup_cases exDB3 0 10).2 ⟨0, "G", 10, 1, none⟩ rfl).2.2 rfl rfl
  exact ⟨h.1, h.2.1 (by decide), h.2.2 1 (by decide)⟩

/-- Store for the C3 counterexample: group 1 (leader 10) has no thesis,
group 2 already records thesis id 7, and the Thesis table is empty (a
dangling reference, possible because no foreign key ties
`Group.thesis_id` to the Thesis table). -/
def exDB4 : DB :=
  ⟨[⟨1, "A", 10, 1, none⟩, ⟨2, "B", 20, 1, some 7⟩],
   [⟨1, 10, true⟩, ⟨2, 20, true⟩], [], [], [], [], 3⟩

/-- C3 counterexample: group 1 exists, the caller 10 is its leader, its
thesis_id is unset, and some group (group 2) already holds thesis 7 — the
claim demands Conflict, but the code checks thesis existence first and
answers NotFound. -/
theorem registerThesis_claim_false :
    findGroup exDB4 1 = some ⟨1, "A", 10, 1, none⟩ ∧
    (⟨1, "A", 10, 1, none⟩ : Group).leader_id = 10 ∧
    (⟨1, "A", 10, 1, none⟩ : Group).thesis_id = none ∧
    (exDB4.groups.find? (fun x => decide (x.thesis_id = some 7))).isSome = true ∧
    register_thesis_for_group exDB4 1 7 10 = .err exDB4 .notFound ∧
    Err.notFound ≠ Err.conflict :=
  ⟨rfl, rfl, rfl, rfl, rfl, by decide⟩

/-- C3 (amended): with the group present, the caller its leader and its
thesis_id unset, `register_thesis_for_group` fails NotFound whenever the
thesis row is absent (even if some group already holds the id); with the
thesis present it fails Conflict when some group already holds the id;
otherwise it sets the group's thesis_id to the thesis and the thesis
status to 2. -/
theorem registerThesis_cases (db : DB) (g t u : Nat) (grp : Group)
    (hf : findGroup db g = some grp) (hl : grp.leader_id = u)
    (ht : grp.thesis_id = none) :
    (db.theses.find? (fun x => decide (x.id = t)) = none →
      register_thesis_for_group db g t u = .err db .notFound) ∧
    (∀ th, db.theses.find? (fun x => decide (x.id = t)) = some th →
      (db.groups.find? (fun x => decide (x.thesis_id = some t))).isSome = true →
      register_thesis_for_group db g t u = .err db .conflict) ∧
    (∀ th, db.theses.find? (fun x => decide (x.id = t)) = some th →
      (db.groups.find? (fun x => decide (x.thesis_id = some t))).isSome = false →
      register_thesis_for_group db g t u = .ok { db with
          groups := updateFirstP (fun x => decide (x.id = g)) (setThesisId t) db.groups,
          theses := updateFirstP (fun x => decide (x.id = t)) setRegistered db.theses }
        (setThesisId t grp) ∧
      findGroup { db with
          groups := updateFirstP (fun x => decide (x.id = g)) (setThesisId t) db.groups,
          theses := updateFirstP (fun x => decide (x.id = t)) setRegistered db.theses } g
        = some { grp with thesis_id := some t } ∧
      (updateFirstP (fun x => decide (x.id = t)) setRegistered db.theses).find?
          (fun x => decide (x.id = t))
        = some { th with status := 2 }) := by
  have hguard : ¬ grp.leader_id ≠ u := not_not.mpr hl
  have hts : grp.thesis_id.isSome = false := by rw [ht]; rfl
  refine ⟨?_, ?_, ?_⟩
  · intro h
    simp only [register_thesis_for_group, hf, if_neg hguard, hts, Bool.false_eq_true,
      if_false, h]
  · intro th hth htaken
    simp only [register_thesis_for_group, hf, if_neg hguard, hts, Bool.false_eq_true,
      if_false, hth, htaken, if_true]
  · intro th hth hfree
    refine ⟨?_, ?_, ?_⟩
    · simp only [register_thesis_for_group, hf, if_neg hguard, hts, Bool.false_eq_true,
        if_false, hth, hfree]
    · exact findGroup_updateFirstP (setThesisId t) hf rfl
    · obtain ⟨L1, L2, hls, hn1, hupd⟩ := updateFirstP_of_find?_eq_some setRegistered hth
      rw [hupd, List.find?_append, List.find?_eq_none.mpr hn1, Option.none_or]
      rw [List.find?_cons_of_pos _ (by simpa using List.find?_some hth)]
      rfl

/-- Store for the C3 witness: group 1 (leader 10) without thesis, thesis
7 present with status 1, no holder. -/
def exDB5 : DB :=
  ⟨[⟨1, "A", 10, 1, none⟩], [⟨1, 10, true⟩], [], [⟨7, 1⟩], [], [], 2⟩

/-- C3 witness: at a concrete store the success branch binds thesis 7 to
group 1 and marks the thesis registered. -/
theorem registerThesis_cases_witness :
    register_thesis_for_group exDB5 1 7 10 = OpResult.ok { exDB5 with
        groups := updateFirstP (fun x => decide (x.id = 1)) (setThesisId 7) exDB5.groups,
        theses := updateFirstP (fun x => decide (x.id = 7)) setRegistered exDB5.theses }
      (setThesisId 7 ⟨1, "A", 10, 1, none⟩) ∧
    findGroup { exDB5 with
        groups := updateFirstP (fun x => decide (x.id = 1)) (setThesisId 7) exDB5.groups,
        theses := updateFirstP (fun x => decide (x.id = 7)) setRegistered exDB5.theses } 1
      = some ⟨1, "A", 10, 1, some 7⟩ ∧
    (updateFirstP (fun x => decide (x.id = 7)) setRegistered exDB5.theses).find?
        (fun x => decide (x.id = 7))
      = some ⟨7, 2⟩ :=
  (registerThesis_cases exDB5 1 7 10 ⟨1, "A", 10, 1, none⟩ rfl rfl rfl).2.2
    ⟨7, 1⟩ rfl rfl

/-- Store for the C4 counterexample: group 1 has members 10 and 20;
member 10 has both profile rows, member 20 has an Information row but no
StudentInfo row. -/
def exDB6 : DB :=
  ⟨[⟨1, "A", 10, 2, none⟩], [⟨1, 10, true⟩, ⟨1, 20, false⟩], [], [],
   [⟨10, "Fa", "La"⟩, ⟨20, "Fb", "Lb"⟩], [⟨10, "S10"⟩], 2⟩

/-- C4 counterexample: member 20 has one of the two profile records (its
Information row) yet is omitted from the detailed member list — the claim
says a member with at least one record present is included, but the code
keeps a member only when both records are present. -/
theorem memberDetails_claim_false :
    (⟨1, 20, false⟩ : GroupMember) ∈ exDB6.members ∧
    (exDB6.informations.find? (fun i => decide (i.user_id = 20))).isSome = true ∧
    (exDB6.studentInfos.find? (fun s => decide (s.user_id = 20))).isSome = false ∧
    get_detailed_members_of_group exDB6 1 = .ok exDB6 [⟨10, "La Fa", "S10", true⟩] ∧
    (memberDetails exDB6 1).any (fun d => decide (d.user_id = 20)) = false ∧
    (get_all_groups_for_user exDB6 20).all
      (fun r => !(r.members.any (fun d => decide (d.user_id = 20)))) = true :=
  ⟨by decide, rfl, rfl, rfl, rfl, rfl⟩

/-- C4 (amended): in the member lists assembled by `memberDetails` (the
loop shared by `get_all_groups_for_user` and
`get_detailed_members_of_group`) a membership row's student appears iff
BOTH of its profile rows are present — a member is silently omitted
exactly when at least one of the Information row and the StudentInfo row
is missing.  For an existing group `get_detailed_members_of_group`
returns exactly `memberDetails`; `get_all_groups_for_user` returns one
entry per group the user belongs to: every entry carries the
`memberDetails` of its group, every membership row of the user whose
group row exists contributes its group's entry (id, name, leader and
member details), and the number of entries equals the number of such
membership rows. -/
theorem memberDetails_inclusion (db : DB) (gid uid : Nat) :
    (∀ mrow ∈ db.members, mrow.group_id = gid →
      ((memberDetails db gid).any (fun d => decide (d.user_id = mrow.student_id)) = true ↔
        ((db.informations.find?
            (fun i => decide (i.user_id = mrow.student_id))).isSome = true ∧
         (db.studentInfos.find?
            (fun s => decide (s.user_id = mrow.student_id))).isSome = true))) ∧
    (∀ grp, findGroup db gid = some grp →
      get_detailed_members_of_group db gid = .ok db (memberDetails db gid)) ∧
    (∀ r ∈ get_all_groups_for_user db uid, r.members = memberDetails db r.id) ∧
    (∀ mb ∈ db.members, mb.student_id = uid →
      ∀ group, findGroup db mb.group_id = some group →
        (⟨group.id, group.name, group.leader_id, memberDetails db mb.group_id⟩ :
          GroupWithMembersResponse) ∈ get_all_groups_for_user db uid) ∧
    ((get_all_groups_for_user db uid).length
      = db.members.countP
          (fun m => (findGroup db m.group_id).isSome && decide (m.student_id = uid))) := by
  refine ⟨?_, ?_, ?_, ?_, ?_⟩
  · intro mrow hmem hgid
    constructor
    · intro hany
      obtain ⟨d, hd, hpd⟩ := List.any_eq_true.mp hany
      obtain ⟨x, hx, hFx⟩ := List.mem_filterMap.mp hd
      have hds : d.user_id = mrow.student_id := by simpa using hpd
      cases hfi : db.informations.find? (fun i => decide (i.user_id = x.student_id)) with
      | none => rw [hfi] at hFx; cases hFx
      | some info =>
        cases hfs : db.studentInfos.find? (fun s => decide (s.user_id = x.student_id)) with
        | none => rw [hfi, hfs] at hFx; cases hFx
        | some sinfo =>
          rw [hfi, hfs] at hFx
          have hxd : x.student_id = d.user_id := by
            have := congrArg (Option.map MemberDetailResponse.user_id) hFx
            simpa using this
          rw [hds] at hxd
          rw [← hxd, hfi, hfs]
          exact ⟨rfl, rfl⟩
    · rintro ⟨hi, hs⟩
      obtain ⟨info, hinfo⟩ := Option.isSome_iff_exists.mp hi
      obtain ⟨sinfo, hsinfo⟩ := Option.isSome_iff_exists.mp hs
      refine List.any_eq_true.mpr
        ⟨⟨mrow.student_id, info.last_name ++ " " ++ info.first_name,
          sinfo.student_code, mrow.is_leader⟩, ?_, by simp⟩
      refine List.mem_filterMap.mpr ⟨mrow, List.mem_filter.mpr ⟨hmem, by simp [hgid]⟩, ?_⟩
      rw [hinfo, hsinfo]
  · intro grp h
    simp only [get_detailed_members_of_group, h]
  · intro r hr
    unfold get_all_groups_for_user at hr
    obtain ⟨mb, hmb, hF⟩ := List.mem_filterMap.mp hr
    cases hfg : findGroup db mb.group_id with
    | none => rw [hfg] at hF; cases hF
    | some group =>
      rw [hfg] at hF
      have hre : r = ⟨group.id, group.name, group.leader_id,
          memberDetails db mb.group_id⟩ := by
        injection hF with h'
        exact h'.symm
      rw [hre]
      have := findGroup_id hfg
      dsimp only
      rw [this]
  · intro mb hmb hsid group hfg
    unfold get_all_groups_for_user
    refine List.mem_filterMap.mpr
      ⟨mb, List.mem_filter.mpr ⟨hmb, by simp [hsid]⟩, ?_⟩
    rw [hfg]
  · unfold get_all_groups_for_user
    rw [List.length_filterMap_eq_countP, List.countP_filter]
    apply List.countP_congr
    intro m _
    cases hfg : findGroup db m.group_id with
    | none => simp [hfg]
    | some group => simp [hfg]

/-- C4 witness: member 10 of group 1 has both profile rows and its detail
entry is present; for the existing group the service returns exactly the
assembled list; user 10's membership row yields group 1's entry in
`get_all_groups_for_user`, and the entry count equals the count of user
10's membership rows with an existing group. -/
theorem memberDetails_inclusion_witness :
    (memberDetails exDB6 1).any
      (fun d => decide (d.user_id = (⟨1, 10, true⟩ : GroupMember).student_id)) = true ∧
    get_detailed_members_of_group exDB6 1 = .ok exDB6 (memberDetails exDB6 1) ∧
    (⟨1, "A", 10, memberDetails exDB6 1⟩ : GroupWithMembersResponse)
      ∈ get_all_groups_for_user exDB6 10 ∧
    (get_all_groups_for_user exDB6 10).length
      = exDB6.members.countP
          (fun m => (findGroup exDB6 m.group_id).isSome && decide (m.student_id = 10)) :=
  ⟨((memberDetails_inclusion exDB6 1 20).1 ⟨1, 10, true⟩ (by decide) rfl).mpr ⟨rfl, rfl⟩,
   (memberDetails_inclusion exDB6 1 20).2.1 ⟨1, "A", 10, 2, none⟩ rfl,
   (memberDetails_inclusion exDB6 1 10).2.2.2.1 ⟨1, 10, true⟩ (by decide) rfl
     ⟨1, "A", 10, 2, none⟩ rfl,
   (memberDetails_inclusion exDB6 1 10).2.2.2.2⟩

/-- A reachable store: from the empty store, user 7 created group "G". -/
def exReach : DB := resState (create_group initDB "G" 7)

theorem reachable_exReach : Reachable exReach :=
  Reachable.step Reachable.init (Step.createG initDB "G" 7)

/-- C5: in every reachable store every group's cached `quantity` equals
the number of GroupMember rows carrying its id, and any single further
operation (any service call, with any arguments, succeeding or failing)
leaves this true — a freshly created group starts the invariant at
quantity 1 with exactly its leader row. -/
theorem quantity_invariant (db : DB) (h : Reachable db) :
    (∀ g ∈ db.groups, g.quantity = (groupCount db.members g.id : Int)) ∧
    (∀ db', Step db db' → ∀ g ∈ db'.groups,
      g.quantity = (groupCount db'.members g.id : Int)) :=
  ⟨(reachable_wf h).quantity_eq,
   fun _ hs => (wf_step (reachable_wf h) hs).quantity_eq⟩

/-- C5 witness: in the store reached by creating one group, that group's
quantity 1 equals its member-row count. -/
theorem quantity_invariant_witness :
    (⟨0, "G", 7, 1, none⟩ : Group).quantity
      = (groupCount exReach.members (⟨0, "G", 7, 1, none⟩ : Group).id : Int) :=
  (quantity_invariant exReach reachable_exReach).1 ⟨0, "G", 7, 1, none⟩ (by decide)

/-- C6: in every reachable store each student id appears in at most one
GroupMember row system-wide (the student-id projection of the member
table has no duplicates), and any single further operation leaves this
true; `create_group` rejects with Conflict a caller who already has a
membership row, and `add_member` — its group, leader and capacity checks
passed — rejects with Conflict a student who already has a membership row
anywhere. -/
theorem one_group_per_student (db : DB) :
    (Reachable db → (db.members.map GroupMember.student_id).Nodup ∧
      ∀ db', Step db db' → (db'.members.map GroupMember.student_id).Nodup) ∧
    (∀ name uid, is_member_of_any_group db uid = true →
      create_group db name uid = .err db .conflict) ∧
    (∀ g s l grp, findGroup db g = some grp → grp.leader_id = l →
      grp.quantity < 4 → is_member_of_any_group db s = true →
      add_member db g s l = .err db .conflict) := by
  refine ⟨?_, ?_, ?_⟩
  · intro h
    exact ⟨(reachable_wf h).students_nodup,
      fun db' hs => (wf_step (reachable_wf h) hs).students_nodup⟩
  · intro name uid h
    have h' : (db.members.find? (fun m => decide (m.student_id = uid))).isSome = true := h
    simp only [create_group, h', if_true]
  · intro g s l grp hf hl hq hmem
    simp only [add_member, hf, if_neg (not_not.mpr hl), if_neg (not_le.mpr hq), hmem,
      if_true]

/-- C6 witness: the one-group store has no duplicate student ids, and its
resident user 7 cannot create a second group. -/
theorem one_group_per_student_witness :
    (exReach.members.map GroupMember.student_id).Nodup ∧
    create_group exReach "H" 7 = .err exReach .conflict :=
  ⟨((one_group_per_student exReach).1 reachable_exReach).1,
   (one_group_per_student exReach).2.1 "H" 7 rfl⟩

/-- C7: in every reachable store (hence after `create_group` and after
every successful `transfer_leader`) each group's is_leader=true rows are
exactly the single row of its recorded leader, and any single further
operation leaves this true; `transfer_leader` fails NotFound when the
group is absent, Forbidden when the caller is not the recorded leader,
NotFound when the target is not a member of the group, and otherwise
writes is_leader := false on the old leader's row, is_leader := true on
the new leader's row and leader_id := newLeader on the group row, which
is then found with the new leader. -/
theorem leader_invariant (db : DB) :
    (Reachable db →
      (∀ g ∈ db.groups, leaderRows db.members g.id = [⟨g.id, g.leader_id, true⟩]) ∧
      (∀ db', Step db db' → ∀ g ∈ db'.groups,
        leaderRows db'.members g.id = [⟨g.id, g.leader_id, true⟩])) ∧
    (∀ g n c,
      (findGroup db g = none → transfer_leader db g n c = .err db .notFound) ∧
      (∀ grp, findGroup db g = some grp →
        (grp.leader_id ≠ c → transfer_leader db g n c = .err db .forbidden) ∧
        (grp.leader_id = c → db.members.find? (memberPred g n) = none →
          transfer_leader db g n c = .err db .notFound) ∧
        (grp.leader_id = c → ∀ nrow crow,
          db.members.find? (memberPred g n) = some nrow →
          db.members.find? (memberPred g c) = some crow →
          transfer_leader db g n c = .ok { db with
              members := updateFirstP (memberPred g n) (setIsLeader true)
                (updateFirstP (memberPred g c) (setIsLeader false) db.members),
              groups := updateFirstP (fun x => decide (x.id = g)) (setLeaderId n)
                db.groups } () ∧
          findGroup { db with
              members := updateFirstP (memberPred g n) (setIsLeader true)
                (updateFirstP (memberPred g c) (setIsLeader false) db.members),
              groups := updateFirstP (fun x => decide (x.id = g)) (setLeaderId n)
                db.groups } g
            = some { grp with leader_id := n }))) := by
  refine ⟨?_, ?_⟩
  · intro h
    exact ⟨(reachable_wf h).leader_unique,
      fun db' hs => (wf_step (reachable_wf h) hs).leader_unique⟩
  · intro g n c
    refine ⟨?_, ?_⟩
    · intro h
      simp only [transfer_leader, h]
    · intro grp hf
      refine ⟨?_, ?_, ?_⟩
      · intro h1
        simp only [transfer_leader, hf, if_pos h1]
      · intro h1 h2
        simp only [transfer_leader, hf, if_neg (not_not.mpr h1), h2, Option.isNone_none,
          if_true]
      · intro h1 nrow crow hn hc
        constructor
        · simp only [transfer_leader, hf, if_neg (not_not.mpr h1), hn, hc,
            Option.isNone_some, Bool.false_eq_true, if_false]
        · exact findGroup_updateFirstP (setLeaderId n) hf rfl

/-- C7 witness: in the two-member store, the leader invariant holds for
group 0, and transferring leadership from 10 to member 30 succeeds and
re-records the leader. -/
theorem leader_invariant_witness :
    leaderRows exReach.members (⟨0, "G", 7, 1, none⟩ : Group).id
      = [⟨(⟨0, "G", 7, 1, none⟩ : Group).id,
          (⟨0, "G", 7, 1, none⟩ : Group).leader_id, true⟩] ∧
    transfer_leader exDB2 0 30 10 = OpResult.ok { exDB2 with
        members := updateFirstP (memberPred 0 30) (setIsLeader true)
          (updateFirstP (memberPred 0 10) (setIsLeader false) exDB2.members),
        groups := updateFirstP (fun x => decide (x.id = 0)) (setLeaderId 30)
          exDB2.groups } () ∧
    findGroup { exDB2 with
        members := updateFirstP (memberPred 0 30) (setIsLeader true)
          (updateFirstP (memberPred 0 10) (setIsLeader false) exDB2.members),
        groups := updateFirstP (fun x => decide (x.id = 0)) (setLeaderId 30)
          exDB2.groups } 0
      = some ⟨0, "G", 30, 2, none⟩ := by
  refine ⟨?_, ?_⟩
  · exact ((leader_invariant exReach).1 reachable_exReach).1 ⟨0, "G", 7, 1, none⟩
      (by decide)
  · exact ((leader_invariant exDB2).2 0 30 10).2 ⟨0, "G", 10, 2, none⟩ rfl |>.2.2 rfl
      ⟨0, 30, false⟩ ⟨0, 10, true⟩ rfl rfl

/-- C10: when the group exists, L is its recorded leader and L's
membership row in the group exists with is_leader = true, the
self-transfer transferLeader(g, L, L) succeeds and returns the store
completely unchanged: the code writes the same row's flag to false and
then back to true, and rewrites leader_id with its current value. -/
theorem transfer_leader_self (db : DB) (g L : Nat) (grp : Group) (m0 : GroupMember)
    (hf : findGroup db g = some grp) (hl : grp.leader_id = L)
    (hm : db.members.find? (memberPred g L) = some m0) (hml : m0.is_leader = true) :
    transfer_leader db g L L = .ok db () := by
  have hguard : ¬ grp.leader_id ≠ L := not_not.mpr hl
  simp only [transfer_leader, hf, if_neg hguard, hm, Option.isNone_some,
    Bool.false_eq_true, if_false]
  have hM : updateFirstP (memberPred g L) (setIsLeader true)
      (updateFirstP (memberPred g L) (setIsLeader false) db.members) = db.members := by
    obtain ⟨A, B, hms, hA, hupd⟩ := updateFirstP_of_find?_eq_some (setIsLeader false) hm
    have hpred0 : memberPred g L m0 = true := List.find?_some hm
    have hpred : memberPred g L (setIsLeader false m0) = true := hpred0
    rw [hupd, updateFirstP_append_right hA]
    rw [show updateFirstP (memberPred g L) (setIsLeader true) (setIsLeader false m0 :: B)
        = setIsLeader true (setIsLeader false m0) :: B from by
      simp only [updateFirstP, if_pos hpred]]
    have hm0 : setIsLeader true (setIsLeader false m0) = m0 := by
      unfold setIsLeader
      rw [← hml]
    rw [hm0, ← hms]
  have hG : updateFirstP (fun x => decide (x.id = g)) (setLeaderId L) db.groups
      = db.groups := by
    refine updateFirstP_eq_self
      (show db.groups.find? (fun x => decide (x.id = g)) = some grp from hf) ?_
    unfold setLeaderId
    rw [← hl]
  rw [hM, hG]

/-- C10 witness: in the one-group store, the leader's self-transfer is
accepted and the store is unchanged. -/
theorem transfer_leader_self_witness :
    transfer_leader exDB1 0 10 10 = OpResult.ok exDB1 () :=
  transfer_leader_self exDB1 0 10 ⟨0, "G", 10, 1, none⟩ ⟨0, 10, true⟩ rfl rfl rfl rfl

end ThesisGroups
